import Mathlib

/-
Verification development for the zarf `images` package (image pull pipeline),
the `exec` command wrapper, and the CLI root command pre-run hook.

The Go source is shallowly embedded: pure data flow becomes Lean functions,
external effects (the registry, the docker daemon, the filesystem, process
execution) become explicit oracle parameters, and fallible Go calls return
`Except String`.  Machine `int64` sizes are modelled as `Int` (the quantities
involved are file sizes, far from overflow, and the source performs no
wrap-around arithmetic on them).
-/

namespace Zarf

/-! ## String helpers mirroring the Go `strings` package -/

/-- Go `strings.Join(lines, sep)`: concatenate with `sep` between elements. -/
def stringsJoin (sep : String) : List String → String
  | [] => ""
  | [s] => s
  | s :: rest => s ++ sep ++ stringsJoin sep rest

/-- Replace the first occurrence of `old` in a character list by `new`
(Go `strings.Replace(s, old, new, 1)` at the character level). -/
def replaceFirstList (old new : List Char) : List Char → List Char
  | [] => if old.isPrefixOf ([] : List Char) then new else []
  | c :: rest =>
    if old.isPrefixOf (c :: rest) then new ++ (c :: rest).drop old.length
    else c :: replaceFirstList old new rest

/-- Go `strings.Replace(s, old, new, 1)`. -/
def stringsReplaceOnce (s old new : String) : String :=
  ⟨replaceFirstList old.data new.data s.data⟩

/-- Does `needle` occur as a contiguous subsequence of the character list? -/
def containsSeqB (needle : List Char) : List Char → Bool
  | [] => needle.isEmpty
  | c :: rest => needle.isPrefixOf (c :: rest) || containsSeqB needle rest

/-- Go `strings.Contains(s, sub)`. -/
def stringsContains (s sub : String) : Bool :=
  containsSeqB sub.data s.data

/-- `needle` occurs contiguously inside `hay` (specification-level predicate). -/
def IsSubstring (needle hay : String) : Prop :=
  ∃ pre post : List Char, hay.data = pre ++ needle.data ++ post

/-! ## Data model: image references, descriptors, index manifests -/

/-- `transform.Image`: a parsed image reference. -/
structure ImageRef where
  Name : String
  Tag : String
  Digest : String
  Reference : String
deriving DecidableEq, Repr

/-- One entry of `v1.IndexManifest.Manifests`; the digest and platform are
kept in their rendered (`String()`) form, which is all `checkForIndex` uses. -/
structure ManifestEntry where
  digestStr : String
  platformStr : String
deriving DecidableEq, Repr

/-- `v1.IndexManifest` as far as `checkForIndex` consumes it. -/
structure IndexManifest where
  manifests : List ManifestEntry
deriving DecidableEq, Repr

/-- `remote.Descriptor`: whether its media type `IsIndex()`, and the result of
`json.Unmarshal`-ing its raw manifest bytes as an index (`none` = malformed). -/
structure Descriptor where
  isIndex : Bool
  parseIndex : Option IndexManifest
deriving DecidableEq, Repr

/-- The `name` local of `checkForIndex`: `refInfo.Name`, plus `":" + Tag` when
the tag is nonempty. -/
def indexName (refInfo : ImageRef) : String :=
  if refInfo.Tag != "" then refInfo.Name ++ ":" ++ refInfo.Tag else refInfo.Name

/-- One line of the enumeration built by `checkForIndex`:
`fmt.Sprintf("image - %s@%s with platform %s", ...)`. -/
def manifestLine (refInfo : ImageRef) (m : ManifestEntry) : String :=
  "image - " ++ indexName refInfo ++ "@" ++ m.digestStr ++ " with platform " ++ m.platformStr

/-- The full error message `checkForIndex` returns for a digest ref that
resolved to an image index. -/
def indexErrorMessage (refInfo : ImageRef) (idx : IndexManifest) : String :=
  refInfo.Reference ++
    " resolved to an OCI image index which is not supported by Zarf, select a specific platform to use: " ++
    stringsJoin "\n"
      ("The following images are available in the index:" ::
        idx.manifests.map (manifestLine refInfo))

/-- `checkForIndex(refInfo, desc)`: reject a digest reference whose remote
descriptor is a multi-platform index, enumerating the available manifests. -/
def checkForIndex (refInfo : ImageRef) (desc : Option Descriptor) : Except String Unit :=
  match desc with
  | none => .ok ()
  | some d =>
    if refInfo.Digest != "" && d.isIndex then
      match d.parseIndex with
      | none => .error "unable to unmarshal index.json"
      | some idx => .error (indexErrorMessage refInfo idx)
    else .ok ()

/-! ## Image model: layers, sizes, media types -/

/-- `v1.Hash`: a digest with its algorithm and hex parts. -/
structure Hash where
  Algorithm : String
  Hex : String
deriving DecidableEq, Repr

/-- `v1.Hash.String()`. -/
def hashString (h : Hash) : String := h.Algorithm ++ ":" ++ h.Hex

/-- One image layer as the pull pipeline observes it: its digest, its declared
size (`layer.Size()`), and whether its media type is an image layer type. -/
structure LayerModel where
  digest : Hash
  size : Int
  imageLayerMediaType : Bool
deriving DecidableEq, Repr

/-- A `v1.Image` as the pull pipeline observes it: the manifest size
(`img.Size()`), the config blob size (`img.Manifest().Config.Size`), the
layers, and a marker recording whether the image was wrapped in the
filesystem layer cache (`cache.Image`). -/
structure ImageModel where
  manifestSize : Int
  configSize : Int
  layers : List LayerModel
  cached : Bool
deriving DecidableEq, Repr

/-- `getSizeOfImage`: manifest size, plus config size, plus each layer size,
accumulated in source order. -/
def getSizeOfImage (img : ImageModel) : Int :=
  let totalSize := img.manifestSize
  let totalSize := totalSize + img.configSize
  img.layers.foldl (fun acc l => acc + l.size) totalSize

/-- Modelled from the spec: `utils.OnlyHasImageLayers` is repository code not
present under the provided sources; per the spec it reports whether the
image's entire payload consists of image-layer media types. -/
def OnlyHasImageLayers (img : ImageModel) : Bool :=
  img.layers.all (fun l => l.imageLayerMediaType)

/-- The cache-routing step of `Pull` (lines 223–229): wrap the image in the
filesystem layer cache exactly when it only has image layers and a cache
directory is configured. -/
def cacheStep (cacheDirectory : String) (img : ImageModel) : ImageModel :=
  if OnlyHasImageLayers img && cacheDirectory != "" then
    { img with cached := true }
  else img

/-! ## The per-reference info-fetch of `Pull` (lines 144–221)

External effects are oracles collected in `FetchEnv`.  `craneGet` is indexed
by call number so that theorems can speak about how many times the remote is
consulted; the source calls `crane.Get` exactly once per reference. -/

/-- Result of a `crane.Get` call: a descriptor, or an error message. -/
inductive GetResult where
  | ok (desc : Descriptor)
  | err (msg : String)
deriving DecidableEq, Repr

/-- Oracles for the external effects of the info-fetch. -/
structure FetchEnv where
  /-- `crane.Load` on a tarball path. -/
  craneLoad : String → Except String ImageModel
  /-- Whether `name.ParseReference` succeeds. -/
  parseReferenceOk : String → Bool
  /-- The result of the i-th `crane.Get` call. -/
  craneGet : Nat → GetResult
  /-- `crane.Pull` on a reference. -/
  cranePull : String → Except String ImageModel
  /-- `getDockerEndpointHost()`. -/
  dockerEndpointHost : Except String String
  /-- Error from `client.NewClientWithOpts`, if any. -/
  dockerClientError : Option String
  /-- `cli.ImageInspectWithRaw`: the image size, or an error. -/
  imageInspectSize : Except String Int
  /-- `daemon.Image`; the argument records whether `WithUnbufferedOpener`
  was passed. -/
  daemonImage : Bool → Except String ImageModel

/-- Which source the image was ultimately loaded from. -/
inductive Route where
  | tarball
  | remote
  | daemon
deriving DecidableEq, Repr

/-- Outcome of the info-fetch for one reference: the route taken, whether the
daemon opener was unbuffered, the remote descriptor (absent for tarball and
daemon loads), and the image. -/
structure FetchedInfo where
  route : Route
  unbufferedOpener : Bool
  desc : Option Descriptor
  img : ImageModel
deriving DecidableEq, Repr

/-- Does the reference end in `.tar`, `.tar.gz`, or `.tgz`? -/
def tarSuffixB (ref : String) : Bool :=
  ".tar".data.isSuffixOf ref.data || ".tar.gz".data.isSuffixOf ref.data ||
    ".tgz".data.isSuffixOf ref.data

/-- The registry-override rewrite loop of `Pull` (lines 145–149): for each
override pair, when its key prefixes the ORIGINAL reference, the candidate is
replaced by `strings.Replace(original, k, v, 1)`.  The list fixes one
iteration order of the Go map. -/
def rewriteReference (registryOverrides : List (String × String)) (reference : String) : String :=
  registryOverrides.foldl
    (fun ref kv =>
      if kv.1.data.isPrefixOf reference.data then stringsReplaceOnce reference kv.1 kv.2
      else ref)
    reference

/-- The error substring `Pull` looks for to detect registry rate limiting. -/
def rateLimitNeedle : String := "unexpected status code 429 Too Many Requests"

/-- The body of the fetch goroutine after the reference has been rewritten
(lines 151–217): tarball load, else parse + `crane.Get`, with the 429
short-circuit and the docker-daemon fallback. -/
def fetchResolvedRef (env : FetchEnv) (refInfo : ImageRef) (ref : String) :
    Except String FetchedInfo :=
  if tarSuffixB ref then
    match env.craneLoad ref with
    | .error e => .error ("unable to load " ++ refInfo.Reference ++ ": " ++ e)
    | .ok img => .ok ⟨Route.tarball, false, none, img⟩
  else if env.parseReferenceOk ref then
    match env.craneGet 0 with
    | .ok desc =>
      match env.cranePull ref with
      | .error e => .error ("unable to pull image " ++ refInfo.Reference ++ ": " ++ e)
      | .ok img => .ok ⟨Route.remote, false, some desc, img⟩
    | .err msg =>
      if stringsContains msg rateLimitNeedle then
        .error ("rate limited by registry: " ++ msg)
      else
        match env.dockerEndpointHost with
        | .error e => .error e
        | .ok _host =>
          match env.dockerClientError with
          | some e => .error ("docker not available: " ++ e)
          | none =>
            match env.imageInspectSize with
            | .error e => .error e
            | .ok _size =>
              match env.daemonImage true with
              | .error e => .error ("failed to load from docker daemon: " ++ e)
              | .ok img => .ok ⟨Route.daemon, true, none, img⟩
  else .error "failed to parse reference"

/-- The full per-reference info-fetch: rewrite the reference, then resolve. -/
def fetchOneImage (env : FetchEnv) (registryOverrides : List (String × String))
    (refInfo : ImageRef) : Except String FetchedInfo :=
  fetchResolvedRef env refInfo (rewriteReference registryOverrides refInfo.Reference)

/-- The sequential model of the info-fetch phase of `Pull`: each reference is
fetched (with its own oracle environment, as each goroutine sees its own
effects), checked against `checkForIndex`, routed through the cache step, and
its size added to the running byte total.  Any failure aborts the phase, as
the errgroup does. -/
def pullInfoPhaseAux (env : ImageRef → FetchEnv) (registryOverrides : List (String × String))
    (cacheDirectory : String) :
    List ImageRef → Int → Except String (List (ImageRef × ImageModel) × Int)
  | [], acc => .ok ([], acc)
  | r :: rest, acc =>
    match fetchOneImage (env r) registryOverrides r with
    | .error e => .error e
    | .ok fi =>
      match checkForIndex r fi.desc with
      | .error e => .error e
      | .ok _ =>
        let img := cacheStep cacheDirectory fi.img
        let size := getSizeOfImage img
        match pullInfoPhaseAux env registryOverrides cacheDirectory rest (acc + size) with
        | .error e => .error e
        | .ok (fetchedRest, total) => .ok ((r, img) :: fetchedRest, total)

/-- The info-fetch phase, starting from a zero byte count. -/
def pullInfoPhase (env : ImageRef → FetchEnv) (registryOverrides : List (String × String))
    (cacheDirectory : String) (refs : List ImageRef) :
    Except String (List (ImageRef × ImageModel) × Int) :=
  pullInfoPhaseAux env registryOverrides cacheDirectory refs 0

/-! ## The save phase of `Pull` (lines 279–309) and the save strategies

Appending one image to the OCI layout (`cl.AppendImage` / `cl.WriteImage` +
`cl.AppendDescriptor`, including the `getSizeOfImage` call that precedes it)
is abstracted by a per-image oracle returning `none` on success or an error
message.  The Go maps are modelled as lists fixing one iteration order. -/

/-- `SaveSequential`: append images one at a time; on the first failure return
the images saved so far together with the error. -/
def SaveSequential (appendResult : ImageRef → Option String) :
    List ImageRef → List ImageRef × Option String
  | [] => ([], none)
  | i :: rest =>
    match appendResult i with
    | some msg => ([], some msg)
    | none =>
      let r := SaveSequential appendResult rest
      (i :: r.1, r.2)

/-- `SaveConcurrent`: every image is attempted (bounded worker pool); the
saved set is the successful ones and the returned error is the first failure
in iteration order, if any.  A goroutine aborted by context cancellation is a
failure of its image under the oracle. -/
def SaveConcurrent (appendResult : ImageRef → Option String) (m : List ImageRef) :
    List ImageRef × Option String :=
  (m.filter (fun i => (appendResult i).isNone),
   (m.filterMap (fun i => appendResult i)).head?)

/-- Removal of the saved images from the to-pull set
(`for k := range saved { delete(toPull, k) }`). -/
def listDiff (l s : List ImageRef) : List ImageRef :=
  l.filter (fun x => decide (x ∉ s))

/-- Which save strategy an attempt used. -/
inductive SaveStrategy where
  | concurrent
  | sequential
deriving DecidableEq, Repr

/-- One attempt of the save phase: the strategy, the to-pull set it received,
and the images it reported saved. -/
structure SaveAttempt where
  strategy : SaveStrategy
  input : List ImageRef
  saved : List ImageRef
deriving DecidableEq, Repr

/-- The trace of the save phase, plus the final error. -/
structure SavePhaseResult where
  attempts : List SaveAttempt
  err : Option String
deriving DecidableEq, Repr

/-- The save phase of `Pull`: `retry.Do(SaveConcurrent, Attempts(2))`, then on
failure `retry.Do(SaveSequential, Attempts(2))`; after every attempt the saved
images are deleted from `toPull`.  `okC n` / `okS n` are the append oracles of
the n-th concurrent / sequential attempt. -/
def pullSavePhase (okC okS : Nat → ImageRef → Option String) (fetched : List ImageRef) :
    SavePhaseResult :=
  let r1 := SaveConcurrent (okC 0) fetched
  let t1 := listDiff fetched r1.1
  match r1.2 with
  | none => ⟨[⟨.concurrent, fetched, r1.1⟩], none⟩
  | some _ =>
    let r2 := SaveConcurrent (okC 1) t1
    let t2 := listDiff t1 r2.1
    match r2.2 with
    | none => ⟨[⟨.concurrent, fetched, r1.1⟩, ⟨.concurrent, t1, r2.1⟩], none⟩
    | some _ =>
      let r3 := SaveSequential (okS 0) t2
      let t3 := listDiff t2 r3.1
      match r3.2 with
      | none =>
        ⟨[⟨.concurrent, fetched, r1.1⟩, ⟨.concurrent, t1, r2.1⟩, ⟨.sequential, t2, r3.1⟩], none⟩
      | some _ =>
        let r4 := SaveSequential (okS 1) t3
        ⟨[⟨.concurrent, fetched, r1.1⟩, ⟨.concurrent, t1, r2.1⟩, ⟨.sequential, t2, r3.1⟩,
          ⟨.sequential, t3, r4.1⟩], r4.2⟩

/-! ## Directory models

A directory is an association list from file name to file payload.  Lookup
finds the first binding; erase removes every binding of the name. -/

/-- Look up the payload stored under a name. -/
def lookupFile {α : Type} (n : String) (fs : List (String × α)) : Option α :=
  (fs.find? (fun p => p.1 == n)).map (fun p => p.2)

/-- Remove every binding of a name. -/
def eraseFile {α : Type} (n : String) (fs : List (String × α)) : List (String × α) :=
  fs.filter (fun p => p.1 != n)

/-! ## Blob repair (lines 316–339 of `Pull`)

`filepath.Walk` lists the regular files of `blobs/sha256` once, then each file
is renamed to the sha256 of its current contents (`os.Rename` overwrites any
file already at the target name).  The hash function is an oracle. -/

/-- `os.Rename(old, new)` on a directory: move the payload of `old` to `new`,
overwriting `new`; no-op when `old` is absent. -/
def renameFile {α : Type} (old new : String) (fs : List (String × α)) : List (String × α) :=
  match lookupFile old fs with
  | none => fs
  | some c => (new, c) :: eraseFile new (eraseFile old fs)

/-- Process the walked names in order, renaming each to the hash of its
current contents; a name whose file has disappeared (overwritten by an
earlier rename) is skipped. -/
def blobRepairWalk {α : Type} (sha256 : α → String) :
    List String → List (String × α) → List (String × α)
  | [], fs => fs
  | n :: rest, fs =>
    match lookupFile n fs with
    | none => blobRepairWalk sha256 rest fs
    | some c => blobRepairWalk sha256 rest (renameFile n (sha256 c) fs)

/-- The blob-repair pass: walk every regular file of the blob directory and
rename it to the sha256 of its contents. -/
def blobRepair {α : Type} (sha256 : α → String) (fs : List (String × α)) :
    List (String × α) :=
  blobRepairWalk sha256 (fs.map (fun p => p.1)) fs

/-! ## `layerCachePath` and `CleanupInProgressLayers` (lines 347–392) -/

/-- `layerCachePath`: the cache file of a digest; on Windows the separator in
the file name is `-`, elsewhere it is `v1.Hash.String()`.  `filepath.Join` is
modelled as `/`-concatenation. -/
def layerCachePath (path : String) (h : Hash) (goos : String) : String :=
  let file := if goos == "windows" then h.Algorithm ++ "-" ++ h.Hex else hashString h
  path ++ "/" ++ file

/-- `CleanupInProgressLayers`: for each layer of the image, stat its cache
file; a missing file is skipped, a file whose size differs from the layer's
declared size is removed.  The cache directory is a map from path to on-disk
size. -/
def CleanupInProgressLayers (goos : String) (cacheDirectory : String) :
    List LayerModel → List (String × Int) → List (String × Int)
  | [], fs => fs
  | l :: rest, fs =>
    match lookupFile (layerCachePath cacheDirectory l.digest goos) fs with
    | none => CleanupInProgressLayers goos cacheDirectory rest fs
    | some sz =>
      if sz != l.size then
        CleanupInProgressLayers goos cacheDirectory rest
          (eraseFile (layerCachePath cacheDirectory l.digest goos) fs)
      else
        CleanupInProgressLayers goos cacheDirectory rest fs

/-! ## The `exec` package (`Cmd`, `CmdWithPrint`, `CmdWithContext`) -/

/-- `exec.Config`. -/
structure ExecConfig where
  Print : Bool
  Dir : String
  Env : List String
deriving DecidableEq, Repr

/-- `exec.PrintCfg()`. -/
def PrintCfg : ExecConfig := ⟨true, "", []⟩

/-- The observable behaviour of an OS process for a given command: whether
`cmd.Start()` fails, the buffered outputs, and the `cmd.Wait()` error. -/
structure ProcResult where
  startError : Option String
  stdoutData : String
  stderrData : String
  waitError : Option String
deriving DecidableEq, Repr

/-- What `CmdWithContext` returns, plus whether a process was started. -/
structure CmdResult where
  stdout : String
  stderr : String
  err : Option String
  processStarted : Bool
deriving DecidableEq, Repr

/-- `exec.CmdWithContext`: an empty command is rejected before any process is
started; otherwise the process runs and the buffered outputs are returned
with the wait error. -/
def CmdWithContext (run : ExecConfig → String → List String → ProcResult)
    (config : ExecConfig) (command : String) (args : List String) : CmdResult :=
  if command == "" then ⟨"", "", some "command is required", false⟩
  else
    let r := run config command args
    match r.startError with
    | some e => ⟨"", "", some e, false⟩
    | none => ⟨r.stdoutData, r.stderrData, r.waitError, true⟩

/-- `exec.Cmd`: delegate with the zero-value config. -/
def Cmd (run : ExecConfig → String → List String → ProcResult)
    (command : String) (args : List String) : CmdResult :=
  CmdWithContext run ⟨false, "", []⟩ command args

/-- `exec.CmdWithPrint`: delegate with `PrintCfg()`, keeping only the error. -/
def CmdWithPrint (run : ExecConfig → String → List String → ProcResult)
    (command : String) (args : List String) : Option String :=
  (CmdWithContext run PrintCfg command args).err

/-! ## The CLI pre-run hook (`src/cmd/root.go`, `preRun`) -/

/-- The security-relevant fields of `config.CommonOptions`. -/
structure CommonOptions where
  Insecure : Bool
  InsecureSkipTLSVerify : Bool
  PlainHTTP : Bool
deriving DecidableEq, Repr

/-- The first step of `preRun` (lines 76–81): when the deprecated
`--insecure` flag is set, force `InsecureSkipTLSVerify` and `PlainHTTP`. -/
def preRunInsecure (o : CommonOptions) : CommonOptions :=
  if o.Insecure then { o with InsecureSkipTLSVerify := true, PlainHTTP := true } else o

/-! ## Helper lemmas -/

theorem isSubstring_self (s : String) : IsSubstring s s :=
  ⟨[], [], by simp⟩

theorem isSubstring_append_left {s t : String} (u : String) (h : IsSubstring s t) :
    IsSubstring s (u ++ t) := by
  obtain ⟨pre, post, hp⟩ := h
  exact ⟨u.data ++ pre, post, by rw [String.data_append, hp]; simp⟩

theorem mem_stringsJoin (sep : String) {s : String} :
    ∀ {l : List String}, s ∈ l → IsSubstring s (stringsJoin sep l) := by
  intro l
  induction l with
  | nil => intro h; cases h
  | cons a rest ih =>
    intro h
    cases rest with
    | nil =>
      have hs : s = a := by
        rcases h with _ | ⟨_, h2⟩
        · rfl
        · cases h2
      subst hs
      exact isSubstring_self s
    | cons b rest2 =>
      rcases h with _ | ⟨_, h2⟩
      · exact ⟨[], (sep ++ stringsJoin sep (b :: rest2)).data, by
          show (stringsJoin sep (s :: b :: rest2)).data = _
          rw [show stringsJoin sep (s :: b :: rest2) = s ++ sep ++ stringsJoin sep (b :: rest2) from rfl]
          rw [String.data_append, String.data_append, String.data_append]
          simp⟩
      · have hsub := ih h2
        have : stringsJoin sep (a :: b :: rest2) = a ++ sep ++ stringsJoin sep (b :: rest2) := rfl
        rw [this]
        rw [String.append_assoc]
        exact isSubstring_append_left a (isSubstring_append_left sep hsub)

/-- A successful `fetchResolvedRef` that took the tarball route has no
remote descriptor. -/
theorem fetchResolvedRef_tarball_desc {env : FetchEnv} {refInfo : ImageRef} {ref : String}
    {fi : FetchedInfo} (h : fetchResolvedRef env refInfo ref = .ok fi)
    (hr : fi.route = Route.tarball) : fi.desc = none := by
  unfold fetchResolvedRef at h
  repeat' split at h
  all_goals first
    | (cases h; rfl)
    | (cases h; exact absurd hr (by simp))
    | cases h

/-! ## C1: index rejection -/

/-- C1: for a reference carrying a digest whose remote descriptor has an
index media type (with a well-formed index manifest), `checkForIndex` fails
with the enumeration error, and that error contains, for every manifest of
the index, the line naming the image together with that manifest's digest and
platform; for a reference with no digest, or a non-index descriptor, or no
descriptor at all (tarball-loaded images in particular), `checkForIndex`
returns no error, so the pull proceeds. -/
theorem checkForIndex_spec :
    (∀ (refInfo : ImageRef) (d : Descriptor) (idx : IndexManifest),
        refInfo.Digest ≠ "" → d.isIndex = true → d.parseIndex = some idx →
        checkForIndex refInfo (some d) = .error (indexErrorMessage refInfo idx) ∧
        ∀ m ∈ idx.manifests,
          IsSubstring (manifestLine refInfo m) (indexErrorMessage refInfo idx)) ∧
    (∀ (refInfo : ImageRef) (desc : Option Descriptor), refInfo.Digest = "" →
        checkForIndex refInfo desc = .ok ()) ∧
    (∀ (refInfo : ImageRef) (d : Descriptor), d.isIndex = false →
        checkForIndex refInfo (some d) = .ok ()) ∧
    (∀ refInfo : ImageRef, checkForIndex refInfo none = .ok ()) ∧
    (∀ (env : FetchEnv) (refInfo : ImageRef) (ref : String) (fi : FetchedInfo),
        fetchResolvedRef env refInfo ref = .ok fi → fi.route = Route.tarball →
        checkForIndex refInfo fi.desc = .ok ()) := by
  refine ⟨?_, ?_, ?_, ?_, ?_⟩
  · intro refInfo d idx hD hI hP
    constructor
    · simp [checkForIndex, hI, hP, bne_iff_ne, hD]
    · intro m hm
      unfold indexErrorMessage
      rw [String.append_assoc]
      refine isSubstring_append_left _ (isSubstring_append_left _ ?_)
      exact mem_stringsJoin "\n" (List.mem_cons_of_mem _ (List.mem_map_of_mem _ hm))
  · intro refInfo desc hD
    cases desc with
    | none => rfl
    | some d => simp [checkForIndex, hD]
  · intro refInfo d hI
    simp [checkForIndex, hI]
  · intro refInfo
    rfl
  · intro env refInfo ref fi hf hr
    rw [fetchResolvedRef_tarball_desc hf hr]
    rfl

/-- Concrete inputs for the `checkForIndex` witness. -/
def wIdxRef : ImageRef :=
  ⟨"docker.io/library/alpine", "3.19", "sha256:aaaa", "docker.io/library/alpine:3.19@sha256:aaaa"⟩

def wIdxEntry : ManifestEntry := ⟨"sha256:bbbb", "linux/amd64"⟩

def wIdx : IndexManifest := ⟨[wIdxEntry, ⟨"sha256:cccc", "linux/arm64"⟩]⟩

def wIdxDesc : Descriptor := ⟨true, some wIdx⟩

def wTagRef : ImageRef :=
  ⟨"docker.io/library/alpine", "3.19", "", "docker.io/library/alpine:3.19"⟩

/-- Witness for C1: the rejection fires on a concrete digest reference and
index descriptor, the enumeration contains the concrete manifest line, and a
bare-tag reference passes. -/
theorem checkForIndex_spec_witness :
    checkForIndex wIdxRef (some wIdxDesc) = .error (indexErrorMessage wIdxRef wIdx) ∧
    IsSubstring (manifestLine wIdxRef wIdxEntry) (indexErrorMessage wIdxRef wIdx) ∧
    checkForIndex wTagRef (some wIdxDesc) = .ok () := by
  refine ⟨(checkForIndex_spec.1 wIdxRef wIdxDesc wIdx (by decide) rfl rfl).1, ?_, ?_⟩
  · exact (checkForIndex_spec.1 wIdxRef wIdxDesc wIdx (by decide) rfl rfl).2 wIdxEntry
      (by simp [wIdx])
  · exact checkForIndex_spec.2.1 wTagRef (some wIdxDesc) rfl

/-! ## C9: the `--insecure` pre-run rewrite -/

/-- C9: when the deprecated insecure option is set, the pre-run step forces
`InsecureSkipTLSVerify` and `PlainHTTP` to true; when it is not set, the
options are left unchanged. -/
theorem preRun_insecure_spec :
    (∀ o : CommonOptions, o.Insecure = true →
        (preRunInsecure o).InsecureSkipTLSVerify = true ∧
        (preRunInsecure o).PlainHTTP = true ∧
        (preRunInsecure o).Insecure = true) ∧
    (∀ o : CommonOptions, o.Insecure = false → preRunInsecure o = o) := by
  constructor
  · intro o h
    refine ⟨?_, ?_, ?_⟩ <;> simp [preRunInsecure, h]
  · intro o h
    simp [preRunInsecure, h]

/-- Witness for C9 at concrete option records. -/
theorem preRun_insecure_spec_witness :
    ((preRunInsecure ⟨true, false, false⟩).InsecureSkipTLSVerify = true ∧
     (preRunInsecure ⟨true, false, false⟩).PlainHTTP = true ∧
     (preRunInsecure ⟨true, false, false⟩).Insecure = true) ∧
    preRunInsecure ⟨false, false, false⟩ = ⟨false, false, false⟩ :=
  ⟨preRun_insecure_spec.1 ⟨true, false, false⟩ rfl,
   preRun_insecure_spec.2 ⟨false, false, false⟩ rfl⟩

/-! ## C10: empty command rejection -/

/-- C10: `CmdWithContext` with an empty command string returns an error and
empty stdout/stderr without starting any process, for every configuration,
argument list and process oracle; `Cmd` and `CmdWithPrint` behave the same. -/
theorem cmd_empty_spec :
    ∀ (run : ExecConfig → String → List String → ProcResult) (config : ExecConfig)
      (args : List String),
      CmdWithContext run config "" args = ⟨"", "", some "command is required", false⟩ ∧
      Cmd run "" args = ⟨"", "", some "command is required", false⟩ ∧
      CmdWithPrint run "" args = some "command is required" := by
  intro run config args
  exact ⟨rfl, rfl, rfl⟩

/-! ## C2: behaviour of the info-fetch on HTTP 429 -/

/-- Concrete data for the rate-limit scenarios. -/
def msg429 : String :=
  "GET https://registry.example.com/v2/app/manifests/1.0: unexpected status code 429 Too Many Requests"

def img0 : ImageModel := ⟨0, 0, [], false⟩

def plainDesc : Descriptor := ⟨false, none⟩

/-- An oracle environment whose first `crane.Get` response is a 429 and whose
second response (and every other effect) would succeed. -/
def env429 : FetchEnv :=
  ⟨fun _ => .error "no tarball",
   fun _ => true,
   fun i => if i == 0 then .err msg429 else .ok plainDesc,
   fun _ => .ok img0,
   .ok "unix:///var/run/docker.sock",
   none,
   .ok 0,
   fun _ => .ok img0⟩

def ref429 : ImageRef :=
  ⟨"registry.example.com/app", "1.0", "", "registry.example.com/app:1.0"⟩

/-- C2 counterexample: with a fetch oracle that answers 429 on the first call
and would answer 200 on the second, the info-fetch phase of `Pull` does not
retry and does not save anything: it fails with the rate-limit error. -/
theorem rateLimit_fetch_counterexample :
    pullInfoPhase (fun _ => env429) [] "" [ref429] =
      .error ("rate limited by registry: " ++ msg429) := rfl

/-- C2 (amended): when an info-fetch receives an HTTP 429 response, `Pull`
does not retry it and does not fall back to the daemon; it surfaces the error
wrapped as a rate-limit error at once.  Moreover the outcome of the fetch
depends only on the first `crane.Get` response: the fetch is never retried. -/
theorem rateLimit_fetch_spec :
    (∀ (env : FetchEnv) (refInfo : ImageRef) (ref msg : String),
        tarSuffixB ref = false → env.parseReferenceOk ref = true →
        env.craneGet 0 = .err msg → stringsContains msg rateLimitNeedle = true →
        fetchResolvedRef env refInfo ref = .error ("rate limited by registry: " ++ msg)) ∧
    (∀ (env : FetchEnv) (g : Nat → GetResult) (refInfo : ImageRef)
        (registryOverrides : List (String × String)),
        g 0 = env.craneGet 0 →
        fetchOneImage { env with craneGet := g } registryOverrides refInfo =
          fetchOneImage env registryOverrides refInfo) := by
  constructor
  · intro env refInfo ref msg hTar hParse hGet h429
    simp [fetchResolvedRef, hTar, hParse, hGet, h429]
  · intro env g refInfo registryOverrides hg
    obtain ⟨cl, pr, cg, cp, dh, dc, ii, di⟩ := env
    simp only [fetchOneImage, fetchResolvedRef] at hg ⊢
    rw [hg]

/-- Witness for C2's amended theorem at the concrete 429 environment. -/
theorem rateLimit_fetch_spec_witness :
    fetchResolvedRef env429 ref429 ref429.Reference =
      .error ("rate limited by registry: " ++ msg429) ∧
    fetchOneImage { env429 with craneGet := fun _ => .err msg429 } [] ref429 =
      fetchOneImage env429 [] ref429 := by
  constructor
  · exact rateLimit_fetch_spec.1 env429 ref429 ref429.Reference msg429 rfl rfl rfl rfl
  · exact rateLimit_fetch_spec.2 env429 (fun _ => .err msg429) ref429 [] rfl

/-! ## C6: resolution precedence -/

/-- If `old` prefixes `s`, replacing its first occurrence substitutes at the
front. -/
theorem replaceFirstList_of_isPrefixOf {old : List Char} (new : List Char) :
    ∀ {s : List Char}, old.isPrefixOf s = true →
      replaceFirstList old new s = new ++ s.drop old.length := by
  intro s h
  cases s with
  | nil => simp [replaceFirstList, h]
  | cons c rest => simp [replaceFirstList, h]

/-- Concrete data for the C6 counterexample: a remote failure that is a 429. -/
def msgC6 : String :=
  "HEAD https://ghcr.io/v2/tools/cli/manifests/2.1: unexpected status code 429 Too Many Requests"

def imgC6 : ImageModel := ⟨7, 11, [⟨⟨"sha256", "11aa"⟩, 100, true⟩], false⟩

/-- Oracle environment for the C6 counterexample: the remote fails with a 429
while the docker daemon is fully available. -/
def envC6 : FetchEnv :=
  ⟨fun _ => .error "no tarball",
   fun _ => true,
   fun _ => .err msgC6,
   fun _ => .ok imgC6,
   .ok "tcp://127.0.0.1:2375",
   none,
   .ok 512,
   fun _ => .ok imgC6⟩

def refC6 : ImageRef := ⟨"ghcr.io/tools/cli", "2.1", "", "ghcr.io/tools/cli:2.1"⟩

/-- C6 counterexample: a remote failure does NOT always fall back to the
docker daemon: on a 429 failure, with the daemon fully available, the fetch
returns the rate-limit error instead of the daemon-loaded image. -/
theorem resolution_precedence_counterexample :
    fetchOneImage envC6 [] refC6 = .error ("rate limited by registry: " ++ msgC6) := rfl

/-- C6 (amended): resolution order per reference: the registry-prefix
overrides rewrite the reference first (a single matching override replaces
the prefix once); a rewritten reference ending in `.tar`/`.tar.gz`/`.tgz` is
loaded from the tarball and the outcome never consults the remote or daemon
oracles; otherwise the remote descriptor is fetched, and on a remote failure
OTHER than an HTTP 429 rate limit the pull falls back to the local container
daemon with an unbuffered opener (a 429 failure is surfaced at once). -/
theorem resolution_precedence_spec :
    (∀ (env : FetchEnv) (registryOverrides : List (String × String)) (refInfo : ImageRef),
        fetchOneImage env registryOverrides refInfo =
          fetchResolvedRef env refInfo (rewriteReference registryOverrides refInfo.Reference)) ∧
    (∀ k v r : String, k.data.isPrefixOf r.data = true →
        rewriteReference [(k, v)] r = ⟨v.data ++ r.data.drop k.data.length⟩) ∧
    (∀ (env : FetchEnv) (refInfo : ImageRef) (ref : String) (img : ImageModel),
        tarSuffixB ref = true → env.craneLoad ref = .ok img →
        fetchResolvedRef env refInfo ref = .ok ⟨Route.tarball, false, none, img⟩) ∧
    (∀ (envA envB : FetchEnv) (refInfo : ImageRef) (ref : String),
        tarSuffixB ref = true → envA.craneLoad = envB.craneLoad →
        fetchResolvedRef envA refInfo ref = fetchResolvedRef envB refInfo ref) ∧
    (∀ (env : FetchEnv) (refInfo : ImageRef) (ref msg host : String) (sz : Int)
        (img : ImageModel),
        tarSuffixB ref = false → env.parseReferenceOk ref = true →
        env.craneGet 0 = .err msg → stringsContains msg rateLimitNeedle = false →
        env.dockerEndpointHost = .ok host → env.dockerClientError = none →
        env.imageInspectSize = .ok sz → env.daemonImage true = .ok img →
        fetchResolvedRef env refInfo ref = .ok ⟨Route.daemon, true, none, img⟩) := by
  refine ⟨?_, ?_, ?_, ?_, ?_⟩
  · intro env registryOverrides refInfo
    rfl
  · intro k v r h
    simp only [rewriteReference, List.foldl_cons, List.foldl_nil, h, if_true, stringsReplaceOnce]
    rw [replaceFirstList_of_isPrefixOf v.data h]
  · intro env refInfo ref img hTar hLoad
    simp [fetchResolvedRef, hTar, hLoad]
  · intro envA envB refInfo ref hTar hEq
    simp only [fetchResolvedRef, hTar, if_true]
    rw [hEq]
  · intro env refInfo ref msg host sz img hTar hParse hGet h429 hHost hClient hInspect hDaemon
    simp [fetchResolvedRef, hTar, hParse, hGet, h429, hHost, hClient, hInspect, hDaemon]

/-- Concrete data for the C6 witness: an override rewrite followed by a
tarball load, and a non-429 failure followed by a daemon fallback. -/
def envTarW : FetchEnv :=
  ⟨fun r => if r == "imgs/base.tar" then .ok img0 else .error "missing",
   fun _ => true, fun _ => .ok plainDesc, fun _ => .ok img0,
   .error "docker unavailable", none, .ok 0, fun _ => .error "daemon off"⟩

def refTarW : ImageRef := ⟨"oci", "", "", "oci://imgs/base.tar"⟩

def msgNotFound : String := "HEAD https://old.example.com/v2/app/manifests/1: status 404"

def envDaemonW : FetchEnv :=
  ⟨fun _ => .error "no tarball", fun _ => true, fun _ => .err msgNotFound,
   fun _ => .ok img0, .ok "unix:///var/run/docker.sock", none, .ok 99,
   fun _ => .ok imgC6⟩

def refDaemonW : ImageRef := ⟨"old.example.com/app", "1", "", "old.example.com/app:1"⟩

/-- Witness for C6's amended theorem: the override rewrite on a concrete pair,
the tarball route on a concrete `.tar` reference, and the daemon fallback on
a concrete 404 failure. -/
theorem resolution_precedence_spec_witness :
    rewriteReference [("old.example.com", "mirror.internal")] "old.example.com/app:1" =
      ⟨"mirror.internal".data ++ "old.example.com/app:1".data.drop "old.example.com".data.length⟩ ∧
    fetchResolvedRef envTarW refTarW "imgs/base.tar" = .ok ⟨Route.tarball, false, none, img0⟩ ∧
    fetchResolvedRef envDaemonW refDaemonW refDaemonW.Reference =
      .ok ⟨Route.daemon, true, none, imgC6⟩ := by
  refine ⟨?_, ?_, ?_⟩
  · exact resolution_precedence_spec.2.1 "old.example.com" "mirror.internal"
      "old.example.com/app:1" rfl
  · exact resolution_precedence_spec.2.2.1 envTarW refTarW "imgs/base.tar" img0 rfl rfl
  · exact resolution_precedence_spec.2.2.2.2 envDaemonW refDaemonW refDaemonW.Reference
      msgNotFound "unix:///var/run/docker.sock" 99 imgC6 rfl rfl rfl rfl rfl rfl rfl rfl

/-! ## C7: cache routing -/

/-- C7: an image coming out of the info-fetch (not yet wrapped) is routed
through the filesystem layer cache exactly when a cache directory is
configured and every layer has an image-layer media type; and
`OnlyHasImageLayers` holds exactly when every layer is an image layer. -/
theorem cache_routing_spec :
    ∀ (cacheDirectory : String) (img : ImageModel), img.cached = false →
      (((cacheStep cacheDirectory img).cached = true) ↔
        (OnlyHasImageLayers img = true ∧ cacheDirectory ≠ "")) ∧
      (OnlyHasImageLayers img = true ↔
        ∀ l ∈ img.layers, l.imageLayerMediaType = true) := by
  intro cacheDirectory img hc
  constructor
  · unfold cacheStep
    split
    · next hcond =>
      rw [Bool.and_eq_true, bne_iff_ne] at hcond
      simp [hcond.1, hcond.2]
    · next hcond =>
      rw [Bool.and_eq_true] at hcond
      simp only [hc]
      constructor
      · intro hfalse; cases hfalse
      · intro ⟨h1, h2⟩
        exact absurd ⟨h1, bne_iff_ne.mpr h2⟩ hcond
  · unfold OnlyHasImageLayers
    rw [List.all_eq_true]

/-- Witness for C7: a pure image-layer image with a cache directory is
wrapped; the same image with no cache directory is not. -/
theorem cache_routing_spec_witness :
    (((cacheStep "/cache" ⟨3, 4, [⟨⟨"sha256", "aa"⟩, 5, true⟩], false⟩).cached = true) ↔
      (OnlyHasImageLayers ⟨3, 4, [⟨⟨"sha256", "aa"⟩, 5, true⟩], false⟩ = true ∧
        ("/cache" : String) ≠ "")) ∧
    (((cacheStep "" ⟨3, 4, [⟨⟨"sha256", "aa"⟩, 5, true⟩], false⟩).cached = true) ↔
      (OnlyHasImageLayers ⟨3, 4, [⟨⟨"sha256", "aa"⟩, 5, true⟩], false⟩ = true ∧
        ("" : String) ≠ "")) :=
  ⟨(cache_routing_spec "/cache" ⟨3, 4, [⟨⟨"sha256", "aa"⟩, 5, true⟩], false⟩ rfl).1,
   (cache_routing_spec "" ⟨3, 4, [⟨⟨"sha256", "aa"⟩, 5, true⟩], false⟩ rfl).1⟩

/-! ## C8: size accounting -/

/-- Folding layer sizes onto an initial total yields the initial total plus
the sum of the sizes. -/
theorem foldl_layerSize_eq_sum :
    ∀ (l : List LayerModel) (init : Int),
      l.foldl (fun acc x => acc + x.size) init = init + (l.map LayerModel.size).sum := by
  intro l
  induction l with
  | nil => intro init; simp
  | cons x xs ih =>
    intro init
    rw [List.foldl_cons, ih (init + x.size), List.map_cons, List.sum_cons]
    ring

/-- Accumulator characterization of the info-fetch byte count. -/
theorem pullInfoPhaseAux_total (env : ImageRef → FetchEnv)
    (registryOverrides : List (String × String)) (cacheDirectory : String) :
    ∀ (refs : List ImageRef) (acc : Int) (out : List (ImageRef × ImageModel) × Int),
      pullInfoPhaseAux env registryOverrides cacheDirectory refs acc = .ok out →
      out.2 = acc + (out.1.map (fun p => getSizeOfImage p.2)).sum := by
  intro refs
  induction refs with
  | nil =>
    intro acc out h
    cases h
    simp
  | cons r rest ih =>
    intro acc out h
    unfold pullInfoPhaseAux at h
    cases hf : fetchOneImage (env r) registryOverrides r with
    | error e => rw [hf] at h; cases h
    | ok fi =>
      rw [hf] at h
      simp only at h
      cases hc : checkForIndex r fi.desc with
      | error e => rw [hc] at h; cases h
      | ok u =>
        rw [hc] at h
        simp only at h
        cases hrec : pullInfoPhaseAux env registryOverrides cacheDirectory rest
            (acc + getSizeOfImage (cacheStep cacheDirectory fi.img)) with
        | error e => rw [hrec] at h; cases h
        | ok pr =>
          obtain ⟨frest, total⟩ := pr
          rw [hrec] at h
          simp only at h
          cases h
          have htail := ih (acc + getSizeOfImage (cacheStep cacheDirectory fi.img))
            (frest, total) hrec
          simp only [List.map_cons, List.sum_cons]
          simp only at htail
          rw [htail]
          ring

/-- C8: `getSizeOfImage` is exactly the manifest size plus the config size
plus the sum of the layer sizes, and a successful info-fetch phase
accumulates exactly the sum of the per-image totals into the byte count used
for progress reporting. -/
theorem image_size_spec :
    (∀ img : ImageModel,
        getSizeOfImage img =
          img.manifestSize + img.configSize + (img.layers.map LayerModel.size).sum) ∧
    (∀ (env : ImageRef → FetchEnv) (registryOverrides : List (String × String))
        (cacheDirectory : String) (refs : List ImageRef)
        (out : List (ImageRef × ImageModel) × Int),
        pullInfoPhase env registryOverrides cacheDirectory refs = .ok out →
        out.2 = (out.1.map (fun p => getSizeOfImage p.2)).sum) := by
  constructor
  · intro img
    unfold getSizeOfImage
    rw [foldl_layerSize_eq_sum]
  · intro env registryOverrides cacheDirectory refs out h
    have := pullInfoPhaseAux_total env registryOverrides cacheDirectory refs 0 out h
    rw [this]
    ring

/-- Concrete environment for the C8 witness: one tarball-loaded image. -/
def imgW : ImageModel := ⟨3, 4, [⟨⟨"sha256", "aa"⟩, 5, true⟩, ⟨⟨"sha256", "bb"⟩, 6, true⟩], false⟩

def envW : FetchEnv :=
  ⟨fun _ => .ok imgW, fun _ => true, fun _ => .ok plainDesc, fun _ => .ok imgW,
   .error "unused", none, .ok 0, fun _ => .error "unused"⟩

def refTarOnly : ImageRef := ⟨"local", "", "", "imgs/app.tar"⟩

/-- Witness for C8: a concrete one-image fetch phase whose byte count equals
the image's total size (3 + 4 + 5 + 6 = 18). -/
theorem image_size_spec_witness :
    pullInfoPhase (fun _ => envW) [] "" [refTarOnly] = .ok ([(refTarOnly, imgW)], 18) ∧
    (18 : Int) = (([(refTarOnly, imgW)].map (fun p => getSizeOfImage p.2)).sum) := by
  have h : pullInfoPhase (fun _ => envW) [] "" [refTarOnly] = .ok ([(refTarOnly, imgW)], 18) := rfl
  exact ⟨h, image_size_spec.2 (fun _ => envW) [] "" [refTarOnly] ([(refTarOnly, imgW)], 18) h⟩

/-! ## C3: the save phase retry discipline -/

/-- Everything `SaveSequential` reports saved was in its input. -/
theorem mem_saveSequential_sub (ok : ImageRef → Option String) :
    ∀ (l : List ImageRef) (x : ImageRef), x ∈ (SaveSequential ok l).1 → x ∈ l := by
  intro l
  induction l with
  | nil => intro x h; simp [SaveSequential] at h
  | cons i rest ih =>
    intro x h
    unfold SaveSequential at h
    cases hok : ok i with
    | some msg => rw [hok] at h; simp at h
    | none =>
      rw [hok] at h
      simp only at h
      rcases List.mem_cons.mp h with h1 | h1
      · exact h1 ▸ List.mem_cons_self i rest
      · exact List.mem_cons_of_mem i (ih x h1)

/-- Everything `SaveConcurrent` reports saved was in its input. -/
theorem mem_saveConcurrent_sub (ok : ImageRef → Option String) (l : List ImageRef)
    (x : ImageRef) (h : x ∈ (SaveConcurrent ok l).1) : x ∈ l :=
  (List.mem_filter.mp h).1

/-- Membership in the to-pull set after deletion of the saved images. -/
theorem mem_listDiff {l s : List ImageRef} {x : ImageRef} :
    x ∈ listDiff l s ↔ x ∈ l ∧ x ∉ s := by
  unfold listDiff
  rw [List.mem_filter]
  simp

/-- C3: the save phase runs `SaveConcurrent` first with at most 2 attempts,
then on failure `SaveSequential` with at most 2 attempts; the first attempt
receives the whole fetched set; every subsequent attempt receives exactly the
previous attempt's input minus what that attempt saved; each attempt saves
only images from its input; an image saved once is never saved by any later
attempt; and the phase returns an error only when all four attempts (both
sequential retries included) have run and failed. -/
theorem pull_savePhase_spec (okC okS : Nat → ImageRef → Option String)
    (fetched : List ImageRef) :
    ((pullSavePhase okC okS fetched).attempts.map SaveAttempt.strategy = [.concurrent] ∨
     (pullSavePhase okC okS fetched).attempts.map SaveAttempt.strategy =
        [.concurrent, .concurrent] ∨
     (pullSavePhase okC okS fetched).attempts.map SaveAttempt.strategy =
        [.concurrent, .concurrent, .sequential] ∨
     (pullSavePhase okC okS fetched).attempts.map SaveAttempt.strategy =
        [.concurrent, .concurrent, .sequential, .sequential]) ∧
    (∀ a, (pullSavePhase okC okS fetched).attempts.head? = some a → a.input = fetched) ∧
    List.Chain' (fun a b => b.input = listDiff a.input a.saved)
        (pullSavePhase okC okS fetched).attempts ∧
    (∀ a ∈ (pullSavePhase okC okS fetched).attempts, ∀ x ∈ a.saved, x ∈ a.input) ∧
    ((pullSavePhase okC okS fetched).attempts.map SaveAttempt.saved).Pairwise
        (fun s t => ∀ x ∈ s, x ∉ t) ∧
    ((pullSavePhase okC okS fetched).err.isSome →
      (pullSavePhase okC okS fetched).attempts.map SaveAttempt.strategy =
        [.concurrent, .concurrent, .sequential, .sequential]) := by
  have hsub2 := mem_saveConcurrent_sub (okC 1)
    (listDiff fetched (SaveConcurrent (okC 0) fetched).1)
  have hsub3 := mem_saveSequential_sub (okS 0)
    (listDiff (listDiff fetched (SaveConcurrent (okC 0) fetched).1)
      (SaveConcurrent (okC 1) (listDiff fetched (SaveConcurrent (okC 0) fetched).1)).1)
  have hsub4 := mem_saveSequential_sub (okS 1)
    (listDiff
      (listDiff (listDiff fetched (SaveConcurrent (okC 0) fetched).1)
        (SaveConcurrent (okC 1) (listDiff fetched (SaveConcurrent (okC 0) fetched).1)).1)
      (SaveSequential (okS 0)
        (listDiff (listDiff fetched (SaveConcurrent (okC 0) fetched).1)
          (SaveConcurrent (okC 1)
            (listDiff fetched (SaveConcurrent (okC 0) fetched).1)).1)).1)
  simp only [pullSavePhase]
  cases hE1 : (SaveConcurrent (okC 0) fetched).2 with
  | none =>
    refine ⟨Or.inl rfl, ?_, ?_, ?_, ?_, ?_⟩
    · intro a ha
      cases ha
      rfl
    · simp
    · intro a ha x hx
      rcases List.mem_singleton.mp ha with rfl
      exact mem_saveConcurrent_sub (okC 0) fetched x hx
    · simp
    · intro h
      simp at h
  | some e1 =>
    cases hE2 : (SaveConcurrent (okC 1) (listDiff fetched (SaveConcurrent (okC 0) fetched).1)).2 with
    | none =>
      refine ⟨Or.inr (Or.inl rfl), ?_, ?_, ?_, ?_, ?_⟩
      · intro a ha
        cases ha
        rfl
      · exact List.chain'_cons.mpr ⟨rfl, List.chain'_singleton _⟩
      · intro a ha x hx
        rcases List.mem_cons.mp ha with rfl | ha2
        · exact mem_saveConcurrent_sub (okC 0) fetched x hx
        · rcases List.mem_singleton.mp ha2 with rfl
          exact hsub2 x hx
      · refine List.Pairwise.cons ?_ (List.pairwise_singleton _ _)
        intro t ht x hx hxt
        rcases List.mem_singleton.mp ht with rfl
        exact (mem_listDiff.mp (hsub2 x hxt)).2 hx
      · intro h
        simp at h
    | some e2 =>
      cases hE3 : (SaveSequential (okS 0)
          (listDiff (listDiff fetched (SaveConcurrent (okC 0) fetched).1)
            (SaveConcurrent (okC 1)
              (listDiff fetched (SaveConcurrent (okC 0) fetched).1)).1)).2 with
      | none =>
        refine ⟨Or.inr (Or.inr (Or.inl rfl)), ?_, ?_, ?_, ?_, ?_⟩
        · intro a ha
          cases ha
          rfl
        · exact List.chain'_cons.mpr ⟨rfl, List.chain'_cons.mpr ⟨rfl, List.chain'_singleton _⟩⟩
        · intro a ha x hx
          rcases List.mem_cons.mp ha with rfl | ha2
          · exact mem_saveConcurrent_sub (okC 0) fetched x hx
          · rcases List.mem_cons.mp ha2 with rfl | ha3
            · exact hsub2 x hx
            · rcases List.mem_singleton.mp ha3 with rfl
              exact hsub3 x hx
        · refine List.Pairwise.cons ?_ (List.Pairwise.cons ?_ (List.pairwise_singleton _ _))
          · intro t ht x hx hxt
            rcases List.mem_cons.mp ht with rfl | ht2
            · exact (mem_listDiff.mp (hsub2 x hxt)).2 hx
            · rcases List.mem_singleton.mp ht2 with rfl
              exact (mem_listDiff.mp (mem_listDiff.mp (hsub3 x hxt)).1).2 hx
          · intro t ht x hx hxt
            rcases List.mem_singleton.mp ht with rfl
            exact (mem_listDiff.mp (hsub3 x hxt)).2 hx
        · intro h
          simp at h
      | some e3 =>
        refine ⟨Or.inr (Or.inr (Or.inr rfl)), ?_, ?_, ?_, ?_, ?_⟩
        · intro a ha
          cases ha
          rfl
        · exact List.chain'_cons.mpr ⟨rfl, List.chain'_cons.mpr ⟨rfl,
            List.chain'_cons.mpr ⟨rfl, List.chain'_singleton _⟩⟩⟩
        · intro a ha x hx
          rcases List.mem_cons.mp ha with rfl | ha2
          · exact mem_saveConcurrent_sub (okC 0) fetched x hx
          · rcases List.mem_cons.mp ha2 with rfl | ha3
            · exact hsub2 x hx
            · rcases List.mem_cons.mp ha3 with rfl | ha4
              · exact hsub3 x hx
              · rcases List.mem_singleton.mp ha4 with rfl
                exact hsub4 x hx
        · refine List.Pairwise.cons ?_ (List.Pairwise.cons ?_
            (List.Pairwise.cons ?_ (List.pairwise_singleton _ _)))
          · intro t ht x hx hxt
            rcases List.mem_cons.mp ht with rfl | ht2
            · exact (mem_listDiff.mp (hsub2 x hxt)).2 hx
            · rcases List.mem_cons.mp ht2 with rfl | ht3
              · exact (mem_listDiff.mp (mem_listDiff.mp (hsub3 x hxt)).1).2 hx
              · rcases List.mem_singleton.mp ht3 with rfl
                exact (mem_listDiff.mp
                  (mem_listDiff.mp (mem_listDiff.mp (hsub4 x hxt)).1).1).2 hx
          · intro t ht x hx hxt
            rcases List.mem_cons.mp ht with rfl | ht2
            · exact (mem_listDiff.mp (hsub3 x hxt)).2 hx
            · rcases List.mem_singleton.mp ht2 with rfl
              exact (mem_listDiff.mp (mem_listDiff.mp (hsub4 x hxt)).1).2 hx
          · intro t ht x hx hxt
            rcases List.mem_singleton.mp ht with rfl
            exact (mem_listDiff.mp (hsub4 x hxt)).2 hx
        · intro _
          rfl

/-- Witness oracles for the save phase. -/
def wFailOk : Nat → ImageRef → Option String := fun _ _ => some "disk full"

def wImgA : ImageRef := ⟨"a", "1", "", "a:1"⟩

/-- Witness for C3: with oracles that always fail, the phase runs the full
concurrent-concurrent-sequential-sequential ladder, and the first attempt
receives the whole fetched set. -/
theorem pull_savePhase_spec_witness :
    (pullSavePhase wFailOk wFailOk [wImgA]).attempts.map SaveAttempt.strategy =
      [.concurrent, .concurrent, .sequential, .sequential] ∧
    (⟨SaveStrategy.concurrent, [wImgA], []⟩ : SaveAttempt).input = [wImgA] := by
  constructor
  · exact (pull_savePhase_spec wFailOk wFailOk [wImgA]).2.2.2.2.2 (by decide)
  · exact (pull_savePhase_spec wFailOk wFailOk [wImgA]).2.1 _ (by decide)

/-! ## C4: blob repair -/

/-- A name absent from the directory has no binding. -/
theorem lookupFile_eq_none {α : Type} {n : String} {fs : List (String × α)} :
    lookupFile n fs = none ↔ ∀ p ∈ fs, p.1 ≠ n := by
  unfold lookupFile
  rw [Option.map_eq_none', List.find?_eq_none]
  constructor
  · intro h p hp
    have := h p hp
    simpa using this
  · intro h p hp
    simpa using h p hp

/-- Invariant of the repair walk: every entry whose name is not still pending
is correctly named, and the walk preserves this until the pending list is
empty. -/
theorem blobRepairWalk_invariant {α : Type} (sha256 : α → String) :
    ∀ (names : List String) (fs : List (String × α)),
      (∀ p ∈ fs, p.1 ∉ names → p.1 = sha256 p.2) →
      ∀ q ∈ blobRepairWalk sha256 names fs, q.1 = sha256 q.2 := by
  intro names
  induction names with
  | nil =>
    intro fs h q hq
    exact h q hq (by simp)
  | cons n rest ih =>
    intro fs h q hq
    unfold blobRepairWalk at hq
    cases hlk : lookupFile n fs with
    | none =>
      rw [hlk] at hq
      refine ih fs ?_ q hq
      intro p hp hrest
      apply h p hp
      intro hmem
      rcases List.mem_cons.mp hmem with heq | hmem2
      · exact (lookupFile_eq_none.mp hlk p hp) heq
      · exact hrest hmem2
    | some c =>
      rw [hlk] at hq
      refine ih _ ?_ q hq
      intro p hp hrest
      unfold renameFile at hp
      rw [hlk] at hp
      rcases List.mem_cons.mp hp with rfl | hp2
      · rfl
      · have h1 := List.mem_filter.mp hp2
        have h2 := List.mem_filter.mp h1.1
        apply h p h2.1
        intro hmem
        rcases List.mem_cons.mp hmem with heq | hmem2
        · exact (bne_iff_ne.mp h2.2) heq
        · exact hrest hmem2

/-- C4: after the blob-repair walk — which processes every regular file of
the blob directory unconditionally — every file remaining in the directory
has a name equal to the sha256 of its contents. -/
theorem blob_repair_spec {α : Type} (sha256 : α → String) (fs : List (String × α)) :
    ∀ q ∈ blobRepair sha256 fs, q.1 = sha256 q.2 := by
  intro q hq
  unfold blobRepair at hq
  refine blobRepairWalk_invariant sha256 (fs.map (fun p => p.1)) fs ?_ q hq
  intro p hp hnot
  exact absurd (List.mem_map_of_mem (fun p => p.1) hp) hnot

/-- A toy content hash for the C4 witness. -/
def wHash : Nat → String := fun v => "h" ++ toString v

/-- Witness for C4: a concrete two-file directory, after repair, contains the
entry `("h2", 2)` and that entry is correctly named. -/
theorem blob_repair_spec_witness :
    (("h2", 2) : String × Nat) ∈ blobRepair wHash [("x", 1), ("y", 2)] ∧
    ("h2", (2 : Nat)).1 = wHash ("h2", (2 : Nat)).2 := by
  have hmem : (("h2", 2) : String × Nat) ∈ blobRepair wHash [("x", 1), ("y", 2)] := by decide
  exact ⟨hmem, blob_repair_spec wHash [("x", 1), ("y", 2)] ("h2", 2) hmem⟩

/-! ## C5: layer cache cleanup -/

/-- Erasing a name removes every binding of that name. -/
theorem lookupFile_eraseFile_self {α : Type} (n : String) (fs : List (String × α)) :
    lookupFile n (eraseFile n fs) = none := by
  rw [lookupFile_eq_none]
  intro p hp
  exact bne_iff_ne.mp (List.mem_filter.mp hp).2

/-- Erasing one name leaves the bindings of every other name unchanged. -/
theorem lookupFile_eraseFile_ne {α : Type} {n p : String} (hne : p ≠ n)
    (fs : List (String × α)) : lookupFile p (eraseFile n fs) = lookupFile p fs := by
  induction fs with
  | nil => rfl
  | cons q rest ih =>
    by_cases hq : q.1 = n
    · have h1 : (q.1 != n) = false := by simp [hq]
      have h2 : (q.1 == p) = false := by
        simp only [beq_eq_false_iff_ne]
        rw [hq]
        exact fun hc => hne hc.symm
      simp only [eraseFile, List.filter_cons, h1, if_false, lookupFile, List.find?_cons, h2] at ih ⊢
      exact ih
    · have h1 : (q.1 != n) = true := bne_iff_ne.mpr hq
      by_cases hqp : q.1 = p
      · simp only [eraseFile, List.filter_cons, h1, if_true, lookupFile, List.find?_cons,
          beq_iff_eq.mpr hqp]
      · have h2 : (q.1 == p) = false := beq_eq_false_iff_ne.mpr hqp
        simp only [eraseFile, List.filter_cons, h1, if_true, lookupFile, List.find?_cons, h2]
          at ih ⊢
        exact ih

/-- A binding found after an erase was present before. -/
theorem lookupFile_eraseFile_some {α : Type} {n p : String} {fs : List (String × α)} {c : α}
    (h : lookupFile p (eraseFile n fs) = some c) : lookupFile p fs = some c := by
  by_cases hpn : p = n
  · rw [hpn, lookupFile_eraseFile_self] at h
    cases h
  · rwa [lookupFile_eraseFile_ne hpn] at h

/-- Cleanup never creates bindings: a binding in the result was already in
the input cache directory, with the same size. -/
theorem cleanup_lookup_some (goos cacheDirectory : String) :
    ∀ (layers : List LayerModel) (fs : List (String × Int)) (p : String) (sz : Int),
      lookupFile p (CleanupInProgressLayers goos cacheDirectory layers fs) = some sz →
      lookupFile p fs = some sz := by
  intro layers
  induction layers with
  | nil =>
    intro fs p sz h
    exact h
  | cons l rest ih =>
    intro fs p sz h
    unfold CleanupInProgressLayers at h
    cases hlk : lookupFile (layerCachePath cacheDirectory l.digest goos) fs with
    | none =>
      rw [hlk] at h
      exact ih fs p sz h
    | some s =>
      rw [hlk] at h
      simp only at h
      by_cases hsz : (s != l.size) = true
      · rw [if_pos hsz] at h
        exact lookupFile_eraseFile_some (ih _ p sz h)
      · rw [if_neg hsz] at h
        exact ih fs p sz h

/-- A path absent from the cache directory stays absent after cleanup. -/
theorem cleanup_lookup_none (goos cacheDirectory : String) (layers : List LayerModel)
    (fs : List (String × Int)) (p : String) (h : lookupFile p fs = none) :
    lookupFile p (CleanupInProgressLayers goos cacheDirectory layers fs) = none := by
  cases hres : lookupFile p (CleanupInProgressLayers goos cacheDirectory layers fs) with
  | none => rfl
  | some sz =>
    rw [cleanup_lookup_some goos cacheDirectory layers fs p sz hres] at h
    cases h

/-- A cached layer file whose size differs from the declared size is deleted
by cleanup. -/
theorem cleanup_deletes_mismatch (goos cacheDirectory : String) :
    ∀ (layers : List LayerModel) (fs : List (String × Int)) (l : LayerModel) (sz : Int),
      l ∈ layers →
      lookupFile (layerCachePath cacheDirectory l.digest goos) fs = some sz →
      sz ≠ l.size →
      lookupFile (layerCachePath cacheDirectory l.digest goos)
        (CleanupInProgressLayers goos cacheDirectory layers fs) = none := by
  intro layers
  induction layers with
  | nil =>
    intro fs l sz hmem
    cases hmem
  | cons l0 rest ih =>
    intro fs l sz hmem hlk hne
    unfold CleanupInProgressLayers
    rcases List.mem_cons.mp hmem with rfl | hmem2
    · rw [hlk]
      simp only
      rw [if_pos (bne_iff_ne.mpr hne)]
      exact cleanup_lookup_none goos cacheDirectory rest _ _
        (lookupFile_eraseFile_self _ fs)
    · cases hlk0 : lookupFile (layerCachePath cacheDirectory l0.digest goos) fs with
      | none => exact ih fs l sz hmem2 hlk hne
      | some s0 =>
        simp only
        by_cases hs0 : (s0 != l0.size) = true
        · rw [if_pos hs0]
          cases hlk2 : lookupFile (layerCachePath cacheDirectory l.digest goos)
              (eraseFile (layerCachePath cacheDirectory l0.digest goos) fs) with
          | none => exact cleanup_lookup_none goos cacheDirectory rest _ _ hlk2
          | some s2 =>
            have : s2 = sz := by
              have := lookupFile_eraseFile_some hlk2
              rw [this] at hlk
              cases hlk
              rfl
            exact ih _ l s2 hmem2 hlk2 (this ▸ hne)
        · rw [if_neg hs0]
          exact ih fs l sz hmem2 hlk hne

/-- A cached file is retained by cleanup when every layer mapping to its path
declares exactly its size. -/
theorem cleanup_retains_match (goos cacheDirectory : String) :
    ∀ (layers : List LayerModel) (fs : List (String × Int)) (p : String) (sz : Int),
      lookupFile p fs = some sz →
      (∀ l ∈ layers, layerCachePath cacheDirectory l.digest goos = p → l.size = sz) →
      lookupFile p (CleanupInProgressLayers goos cacheDirectory layers fs) = some sz := by
  intro layers
  induction layers with
  | nil =>
    intro fs p sz h _
    exact h
  | cons l0 rest ih =>
    intro fs p sz h hall
    unfold CleanupInProgressLayers
    cases hlk0 : lookupFile (layerCachePath cacheDirectory l0.digest goos) fs with
    | none =>
      exact ih fs p sz h (fun l hl => hall l (List.mem_cons_of_mem l0 hl))
    | some s0 =>
      simp only
      by_cases hp0 : layerCachePath cacheDirectory l0.digest goos = p
      · have hs0 : s0 = sz := by
          rw [hp0] at hlk0
          rw [hlk0] at h
          cases h
          rfl
        have hsize : l0.size = sz := hall l0 (List.mem_cons_self l0 rest) hp0
        have : (s0 != l0.size) = false := by
          simp [hs0, hsize]
        rw [this, if_neg (by simp)]
        exact ih fs p sz h (fun l hl => hall l (List.mem_cons_of_mem l0 hl))
      · by_cases hs0 : (s0 != l0.size) = true
        · rw [if_pos hs0]
          refine ih _ p sz ?_ (fun l hl => hall l (List.mem_cons_of_mem l0 hl))
          rw [lookupFile_eraseFile_ne (fun hc => hp0 hc.symm) fs]
          exact h
        · rw [if_neg hs0]
          exact ih fs p sz h (fun l hl => hall l (List.mem_cons_of_mem l0 hl))

/-- Final cache invariant: after cleanup, every remaining cached layer file
of the image has exactly its layer's declared size. -/
theorem cleanup_final_invariant (goos cacheDirectory : String) :
    ∀ (layers : List LayerModel) (fs : List (String × Int)) (l : LayerModel) (sz : Int),
      l ∈ layers →
      lookupFile (layerCachePath cacheDirectory l.digest goos)
        (CleanupInProgressLayers goos cacheDirectory layers fs) = some sz →
      sz = l.size := by
  intro layers
  induction layers with
  | nil =>
    intro fs l sz hmem
    cases hmem
  | cons l0 rest ih =>
    intro fs l sz hmem hres
    unfold CleanupInProgressLayers at hres
    rcases List.mem_cons.mp hmem with rfl | hmem2
    · cases hlk0 : lookupFile (layerCachePath cacheDirectory l.digest goos) fs with
      | none =>
        rw [hlk0] at hres
        have := cleanup_lookup_some goos cacheDirectory rest fs _ sz hres
        rw [this] at hlk0
        cases hlk0
      | some s0 =>
        rw [hlk0] at hres
        simp only at hres
        by_cases hs0 : (s0 != l.size) = true
        · rw [if_pos hs0] at hres
          have := cleanup_lookup_some goos cacheDirectory rest _ _ sz hres
          rw [lookupFile_eraseFile_self] at this
          cases this
        · rw [if_neg hs0] at hres
          have := cleanup_lookup_some goos cacheDirectory rest fs _ sz hres
          rw [this] at hlk0
          cases hlk0
          simpa using hs0
    · cases hlk0 : lookupFile (layerCachePath cacheDirectory l0.digest goos) fs with
      | none =>
        rw [hlk0] at hres
        exact ih fs l sz hmem2 hres
      | some s0 =>
        rw [hlk0] at hres
        simp only at hres
        by_cases hs0 : (s0 != l0.size) = true
        · rw [if_pos hs0] at hres
          exact ih _ l sz hmem2 hres
        · rw [if_neg hs0] at hres
          exact ih fs l sz hmem2 hres

/-- A path that is not the cache path of any layer is untouched by cleanup. -/
theorem cleanup_other_paths (goos cacheDirectory : String) :
    ∀ (layers : List LayerModel) (fs : List (String × Int)) (p : String),
      (∀ l ∈ layers, layerCachePath cacheDirectory l.digest goos ≠ p) →
      lookupFile p (CleanupInProgressLayers goos cacheDirectory layers fs) =
        lookupFile p fs := by
  intro layers
  induction layers with
  | nil =>
    intro fs p _
    rfl
  | cons l0 rest ih =>
    intro fs p hall
    unfold CleanupInProgressLayers
    cases hlk0 : lookupFile (layerCachePath cacheDirectory l0.digest goos) fs with
    | none => exact ih fs p (fun l hl => hall l (List.mem_cons_of_mem l0 hl))
    | some s0 =>
      simp only
      by_cases hs0 : (s0 != l0.size) = true
      · rw [if_pos hs0]
        rw [ih _ p (fun l hl => hall l (List.mem_cons_of_mem l0 hl))]
        exact lookupFile_eraseFile_ne
          (fun hc => hall l0 (List.mem_cons_self l0 rest) hc.symm) fs
      · rw [if_neg hs0]
        exact ih fs p (fun l hl => hall l (List.mem_cons_of_mem l0 hl))

/-- C5: `CleanupInProgressLayers` deletes exactly the cached layer files whose
on-disk size differs from the declared size: a layer with no cache file is
skipped (its path stays absent), a file whose size matches every layer that
declares it is left unchanged, a mismatched file is deleted, any path that
belongs to no layer is untouched, and afterwards every remaining cached layer
file of the image has its layer's declared size. -/
theorem cleanup_layers_spec (goos cacheDirectory : String) (layers : List LayerModel)
    (fs : List (String × Int)) :
    (∀ l ∈ layers, ∀ sz : Int,
        lookupFile (layerCachePath cacheDirectory l.digest goos) fs = some sz →
        sz ≠ l.size →
        lookupFile (layerCachePath cacheDirectory l.digest goos)
          (CleanupInProgressLayers goos cacheDirectory layers fs) = none) ∧
    (∀ (p : String) (sz : Int), lookupFile p fs = some sz →
        (∀ l ∈ layers, layerCachePath cacheDirectory l.digest goos = p → l.size = sz) →
        lookupFile p (CleanupInProgressLayers goos cacheDirectory layers fs) = some sz) ∧
    (∀ l ∈ layers,
        lookupFile (layerCachePath cacheDirectory l.digest goos) fs = none →
        lookupFile (layerCachePath cacheDirectory l.digest goos)
          (CleanupInProgressLayers goos cacheDirectory layers fs) = none) ∧
    (∀ p : String, (∀ l ∈ layers, layerCachePath cacheDirectory l.digest goos ≠ p) →
        lookupFile p (CleanupInProgressLayers goos cacheDirectory layers fs) =
          lookupFile p fs) ∧
    (∀ l ∈ layers, ∀ sz : Int,
        lookupFile (layerCachePath cacheDirectory l.digest goos)
          (CleanupInProgressLayers goos cacheDirectory layers fs) = some sz →
        sz = l.size) := by
  refine ⟨?_, ?_, ?_, ?_, ?_⟩
  · intro l hl sz hlk hne
    exact cleanup_deletes_mismatch goos cacheDirectory layers fs l sz hl hlk hne
  · intro p sz hlk hall
    exact cleanup_retains_match goos cacheDirectory layers fs p sz hlk hall
  · intro l _ hnone
    exact cleanup_lookup_none goos cacheDirectory layers fs _ hnone
  · intro p hall
    exact cleanup_other_paths goos cacheDirectory layers fs p hall
  · intro l hl sz hres
    exact cleanup_final_invariant goos cacheDirectory layers fs l sz hl hres

/-- Concrete data for the C5 witness: one complete layer, one truncated
layer, and one layer with no cache file. -/
def wLayerGood : LayerModel := ⟨⟨"sha256", "g1"⟩, 10, true⟩

def wLayerBad : LayerModel := ⟨⟨"sha256", "b2"⟩, 20, true⟩

def wLayerMissing : LayerModel := ⟨⟨"sha256", "m3"⟩, 30, true⟩

def wCacheFs : List (String × Int) :=
  [("/cache/sha256:g1", 10), ("/cache/sha256:b2", 7), ("/cache/other", 99)]

/-- Witness for C5 at the concrete cache directory: the truncated layer is
deleted, the complete layer is retained, the missing layer stays absent, the
unrelated file is untouched, and the retained layer satisfies the final
invariant. -/
theorem cleanup_layers_spec_witness :
    lookupFile (layerCachePath "/cache" wLayerBad.digest "linux")
      (CleanupInProgressLayers "linux" "/cache"
        [wLayerGood, wLayerBad, wLayerMissing] wCacheFs) = none ∧
    lookupFile "/cache/sha256:g1"
      (CleanupInProgressLayers "linux" "/cache"
        [wLayerGood, wLayerBad, wLayerMissing] wCacheFs) = some 10 ∧
    lookupFile (layerCachePath "/cache" wLayerMissing.digest "linux")
      (CleanupInProgressLayers "linux" "/cache"
        [wLayerGood, wLayerBad, wLayerMissing] wCacheFs) = none ∧
    lookupFile "/cache/other"
      (CleanupInProgressLayers "linux" "/cache"
        [wLayerGood, wLayerBad, wLayerMissing] wCacheFs) = lookupFile "/cache/other" wCacheFs ∧
    (10 : Int) = wLayerGood.size := by
  have h := cleanup_layers_spec "linux" "/cache" [wLayerGood, wLayerBad, wLayerMissing] wCacheFs
  refine ⟨?_, ?_, ?_, ?_, ?_⟩
  · exact h.1 wLayerBad (by decide) 7 (by decide) (by decide)
  · exact h.2.1 "/cache/sha256:g1" 10 (by decide) (by decide)
  · exact h.2.2.1 wLayerMissing (by decide) (by decide)
  · exact h.2.2.2.1 "/cache/other" (by decide)
  · exact h.2.2.2.2 wLayerGood (by decide) 10
      (h.2.1 "/cache/sha256:g1" 10 (by decide) (by decide))

end Zarf
